import Mathlib

/-!
Verification development for the SupplierSelectionBatch pipeline.

The Python sources are embedded shallowly:
* `src/main.py`  — job loader (lines 62-90), outcome router `move_folder`
  (lines 24-38), and the per-job loop (lines 53-96);
* `src/pdfGenerator.py` — report compiler `generate_report`, `split_df`,
  `create_radar_chart`.

Conventions of the embedding:
* a pandas cell read from CSV is `Option String` (`none` models NaN, i.e. a
  blank cell);
* machine floats are modelled by `Rat`; a NaN produced by
  `pd.to_numeric(errors := coerce)` is modelled by `none : Option Rat`;
* S3 object keys are `List Char` (Python strings); the store is an
  association list from keys to object contents (contents abstracted as `Nat`);
* fallible Python code (exceptions) returns `Except String` values.
-/

/-! ## Job loader (`src/main.py`, lines 62-90)

The loader reads `criteria_configuration.csv` with `header=None`, drops
fully-blank rows, keeps the first three columns, filters rows whose first
cell is the literal `Criterion`, coerces weights with
`pd.to_numeric(errors="coerce")`, and maps the `Beneficial` column through
`astype(str).str.strip().map(True/False)`.  Boolean masking with a column
that contains an unmapped (NaN) entry raises `ValueError` in pandas; that is
the only raise point of the criteria block. -/

/-- Value of cell `i` of a raw CSV row; pandas pads missing trailing cells
with NaN (`none`). -/
def cellAt (r : List (Option String)) (i : Nat) : Option String :=
  (r.get? i).getD none

/-- Row kept by `df.dropna(how="all")`: at least one non-NaN cell. -/
def nonBlank (r : List (Option String)) : Bool :=
  r.any (fun c => c.isSome)

/-- Result of `df[[0, 1, 2]]` on one row: the three read columns
`Criterion`, `Weight`, `Beneficial`. -/
structure Row3 where
  c0 : Option String
  c1 : Option String
  c2 : Option String
deriving DecidableEq, Repr

/-- Projection of a raw row to its first three cells (`df = df[[0, 1, 2]]`). -/
def take3 (r : List (Option String)) : Row3 :=
  ⟨cellAt r 0, cellAt r 1, cellAt r 2⟩

/-- Predicate of the header filter `df[df["Criterion"] != "Criterion"]`:
a row is removed exactly when its first cell equals `"Criterion"`. -/
def isHeaderRow (r : List (Option String)) : Bool :=
  cellAt r 0 == some "Criterion"

/-- Rows that survive the three data-cleaning steps of the loader, in order:
`dropna(how="all")`, `df[[0,1,2]]`, `df[df["Criterion"] != "Criterion"]`. -/
def survivingRows (t : List (List (Option String))) : List Row3 :=
  ((t.filter nonBlank).map take3).filter (fun q => !(q.c0 == some "Criterion"))

/-- Digit-string parser: value and number of digits consumed, `none` on any
non-digit character. -/
def parseDigitsAux : List Char → Nat → Nat → Option (Nat × Nat)
  | [], v, n => some (v, n)
  | c :: cs, v, n =>
    if c.isDigit then parseDigitsAux cs (v * 10 + (c.toNat - 48)) (n + 1)
    else none

/-- Unsigned decimal literal: digits, optionally a dot and more digits, with
at least one digit overall. -/
def parseUnsigned (l : List Char) : Option Rat :=
  let ip := l.takeWhile (fun c => !(c == '.'))
  let rest := l.dropWhile (fun c => !(c == '.'))
  match rest with
  | [] =>
    match parseDigitsAux ip 0 0 with
    | some (v, n) => if n = 0 then none else some (v : Rat)
    | none => none
  | _ :: frac =>
    match parseDigitsAux ip 0 0, parseDigitsAux frac 0 0 with
    | some (vi, ni), some (vf, nf) =>
      if ni + nf = 0 then none
      else some ((vi : Rat) + (vf : Rat) / ((10 : Rat) ^ nf))
    | _, _ => none

/-- Numeric coercion of one string cell, modelling what
`pd.to_numeric(errors="coerce")` accepts on a decimal literal. -/
def parseNum (s : String) : Option Rat :=
  match s.data with
  | '-' :: rest => (parseUnsigned rest).map (fun q => -q)
  | l => parseUnsigned l

/-- Weight column conversion `pd.to_numeric(df["Weight"], errors="coerce")`:
a cell that fails coercion becomes NaN (`none`), never an error. -/
def toNumericCoerce : Option String → Option Rat
  | none => none
  | some s => parseNum s

/-- Python `str.strip()`: leading and trailing whitespace removed. -/
def pyStrip (s : String) : String :=
  ⟨(((s.data.dropWhile Char.isWhitespace).reverse).dropWhile Char.isWhitespace).reverse⟩

/-- Beneficial column conversion
`df["Beneficial"].astype(str).str.strip().map({"True": True, "False": False})`;
`astype(str)` renders NaN as the string `nan`, and unmapped tokens become
NaN (`none`). -/
def toBeneficial (c : Option String) : Option Bool :=
  let s := pyStrip (match c with | none => "nan" | some s => s)
  if s = "True" then some true
  else if s = "False" then some false
  else none

/-- Outcome of the criteria block: the two direction lists and the weights
dict (`dict(zip(df["Criterion"], df["Weight"]))`). -/
structure CriteriaConfig where
  beneficial : List (Option String)
  nonBeneficial : List (Option String)
  weights : List (Option String × Option Rat)
deriving DecidableEq, Repr

/-- Python `dict` insertion: an existing key keeps its position and gets the
new value, a new key is appended. -/
def dictUpsert : List (Option String × Option Rat) → Option String → Option Rat →
    List (Option String × Option Rat)
  | [], k, v => [(k, v)]
  | (k₀, v₀) :: rest, k, v =>
    if k₀ = k then (k₀, v) :: rest else (k₀, v₀) :: dictUpsert rest k v

/-- Criteria block of the loader (`src/main.py` lines 64-77).  The boolean
mask `df[df["Beneficial"]]` raises `ValueError` when the converted column
contains a NaN; otherwise the two direction lists and the weights dict are
produced. -/
def loadCriteria (t : List (List (Option String))) : Except String CriteriaConfig :=
  let rows := survivingRows t
  if (rows.map (fun q => toBeneficial q.c2)).all Option.isSome then
    Except.ok
      { beneficial := (rows.filter (fun q => toBeneficial q.c2 == some true)).map Row3.c0
        nonBeneficial := (rows.filter (fun q => toBeneficial q.c2 == some false)).map Row3.c0
        weights := rows.foldl (fun m q => dictUpsert m q.c0 (toNumericCoerce q.c1)) [] }
  else
    Except.error "ValueError: cannot mask with non-boolean array containing NA"

/-- Lookup of one key in the weights dict (`weights[c]`): the value stored
for the key, if the key is present. -/
def dictFind (m : List (Option String × Option Rat)) (k : Option String) :
    Option (Option Rat) :=
  (m.find? (fun kv => kv.1 == k)).map (fun kv => kv.2)

/-- Evaluation dataset `data.csv`: first column holds the entity identifier,
the remaining cells of each row are numeric and aligned with `cols.tail`. -/
structure DataFrame where
  cols : List String
  rows : List (String × List Rat)
deriving DecidableEq, Repr

/-- Typed job model produced by a successful pass of the loader block. -/
structure Job where
  config : CriteriaConfig
  companyName : String
  contactEmail : String
  dataset : DataFrame
deriving DecidableEq, Repr

/-- Company-info block (`src/main.py` lines 79-84): strip every line, keep
the non-blank ones, take entries 1 and 2; a missing entry raises
`IndexError`. -/
def processCompanyLines (lines : List String) : Option (String × String) :=
  let ls := (lines.map pyStrip).filter (fun s => !(s == ""))
  match ls.get? 1, ls.get? 2 with
  | some n, some e => some (n, e)
  | _, _ => none

/-- Whole loader block of the per-job try body (`src/main.py` lines 62-87):
criteria configuration, company info, then the dataset (which is only read,
never validated against the criteria). -/
def loadJob (t : List (List (Option String))) (lines : List String)
    (df : DataFrame) : Except String Job :=
  match loadCriteria t with
  | Except.error e => Except.error e
  | Except.ok cfg =>
    match processCompanyLines lines with
    | none => Except.error "IndexError: list index out of range"
    | some (n, e) => Except.ok ⟨cfg, n, e, df⟩

/-! ## Outcome router (`src/main.py`, lines 24-38)

`move_folder` paginates over every object under the source key range, and
for each object copies it to the key obtained by
`source_key.replace(source_prefix, target_prefix, 1)` and then deletes the
source object.  Keys are Python strings, modelled as `List Char`; the store
is an association list with unique keys. -/

abbrev Key := List Char

abbrev S3State := List (Key × Nat)

/-- Lookup of one object (`get_object`). -/
def getObject (st : S3State) (k : Key) : Option Nat :=
  (st.find? (fun kv => decide (kv.1 = k))).map (fun kv => kv.2)

/-- Write of one object (`copy_object` target side): an existing object at
the key is overwritten. -/
def putObject (st : S3State) (k : Key) (v : Nat) : S3State :=
  (k, v) :: st.filter (fun kv => decide (kv.1 ≠ k))

/-- Deletion of one object (`delete_object`); deleting an absent key is a
no-op, as in S3. -/
def deleteObject (st : S3State) (k : Key) : S3State :=
  st.filter (fun kv => decide (kv.1 ≠ k))

/-- Copy of one object (`copy_object`): the source content is written at the
target key.  A missing source leaves the store unchanged (the real call
would raise; the theorems only use it on listed, hence present, keys). -/
def copyObject (st : S3State) (src tgt : Key) : S3State :=
  match getObject st src with
  | some v => putObject st tgt v
  | none => st

/-- Enumeration of all objects under a key range
(`paginator.paginate(Prefix=p)`). -/
def listAllObjects (st : S3State) (p : Key) : List (Key × Nat) :=
  st.filter (fun kv => decide (p <+: kv.1))

/-- Python `s.replace(pat, rep, 1)`: the first occurrence of `pat` in `s` is
replaced by `rep`; if `pat` does not occur, `s` is returned unchanged. -/
def replaceFirst : List Char → List Char → List Char → List Char
  | [], pat, rep => if pat = [] then rep else []
  | c :: cs, pat, rep =>
    if pat <+: (c :: cs) then rep ++ (c :: cs).drop pat.length
    else c :: replaceFirst cs pat rep

/-- Body of the `move_folder` loop for one listed object: copy it to its
retargeted key, then delete the source object. -/
def moveStep (src tgt : Key) (s : S3State) (kv : Key × Nat) : S3State :=
  deleteObject (copyObject s kv.1 (replaceFirst kv.1 src tgt)) kv.1

/-- Embedding of `move_folder`: the listing under the source range is taken,
then each listed object is copied to its retargeted key and the source
object deleted, in listing order. -/
def move_folder (st : S3State) (src tgt : Key) : S3State :=
  (listAllObjects st src).foldl (moveStep src tgt) st

/-! ## Per-job loop (`src/main.py`, lines 53-96)

The loop body is `try: load; rank; move_folder(done) except Exception:
move_folder(ko)`.  Processing of one job (loading, ranking, reporting) is
abstracted as a boolean outcome `proc`, and the success of one relocation as
`relocOk`; an exception raised by the success-path relocation is still
inside the `try`, while one raised by the failure-path relocation is
uncaught and aborts the run. -/

/-- Python `s.startswith(p)` on the character sequences of the strings. -/
def strStarts (p s : String) : Bool :=
  p.data.isPrefixOf s.data

/-- Terminal check of the loop:
`folder.startswith("done/") or folder.startswith("ko/")`. -/
def isTerminal (f : String) : Bool :=
  strStarts "done/" f || strStarts "ko/" f

/-- Routing decision recorded for one folder. -/
inductive JobAction
  | skipped
  | movedDone
  | movedKo
deriving DecidableEq, Repr

/-- One iteration of the loop body: the `try` block runs loading, ranking,
reporting (`proc`) and then the success relocation; the handler catches any
exception from the block and runs the failure relocation, whose own failure
propagates. -/
def processFolder (proc : String → Bool) (relocOk : String → String → Bool)
    (f : String) : Except String JobAction :=
  if isTerminal f then Except.ok JobAction.skipped
  else if proc f then
    if relocOk f ("done/" ++ f) then Except.ok JobAction.movedDone
    else if relocOk f ("ko/" ++ f) then Except.ok JobAction.movedKo
    else Except.error "RelocationError"
  else if relocOk f ("ko/" ++ f) then Except.ok JobAction.movedKo
  else Except.error "RelocationError"

/-- Whole run over the discovered folders: sequential, stopping only when an
iteration lets an exception escape. -/
def runJobs (proc : String → Bool) (relocOk : String → String → Bool)
    (folders : List String) : Except String (List (String × JobAction)) :=
  folders.foldlM
    (fun acc f => (processFolder proc relocOk f).map (fun a => acc ++ [(f, a)]))
    []

/-- Routing decision the propagation policy prescribes for one folder:
terminal folders are skipped, a successfully processed job goes to `done/`,
a failed one to `ko/`. -/
def routeOf (proc : String → Bool) (f : String) : JobAction :=
  if isTerminal f then JobAction.skipped
  else if proc f then JobAction.movedDone
  else JobAction.movedKo

/-! ## Report compiler (`src/pdfGenerator.py`)

The compiler is deterministic in its two dataframes and the perturbation
text; the only external effect is `doc.build`, abstracted by the
`buildRaises` flag.  The temporary radar-chart image is created by
`create_radar_chart` before `doc.build` runs, and `os.remove(radar_path)`
is the last statement of `generate_report`, executed only when `doc.build`
returns normally. -/

/-- Lookup of the numeric value of row `r` at the column named `col`
(pandas label indexing); the identifier column carries no numeric value. -/
def dfLookup (df : DataFrame) (r : String × List Rat) (col : String) : Option Rat :=
  match df.cols.indexOf? col with
  | some 0 => none
  | some (i + 1) => r.2.get? i
  | none => none

/-- Radar chart content: the criterion axes and one series per plotted
supplier. -/
structure RadarChart where
  metrics : List String
  series : List (String × List (Option Rat))
deriving DecidableEq, Repr

/-- Embedding of `create_radar_chart`: rows of the initial dataframe whose
identifier is among `top10` are kept (in dataframe order), and each is
plotted over the metric columns `initial_df.columns[1:-1]`. -/
def create_radar_chart (initial_df : DataFrame) (top10 : List String) : RadarChart :=
  let radarData := initial_df.rows.filter (fun r => decide (r.1 ∈ top10))
  let metrics := initial_df.cols.tail.dropLast
  { metrics := metrics
    series := radarData.map (fun r => (r.1, metrics.map (fun m => dfLookup initial_df r m))) }

/-- Comparison key of `sort_values(by=col, ascending=True)`: NaN values sort
last (`na_position="last"`). -/
def optLeB (a b : Option Rat) : Bool :=
  match a, b with
  | _, none => true
  | none, some _ => false
  | some x, some y => decide (x ≤ y)

/-- Row order used by the per-criterion leaderboards: ascending in the
criterion value. -/
def valLe (a b : String × Option Rat) : Prop :=
  optLeB a.2 b.2 = true

instance : DecidableRel valLe :=
  fun a b => inferInstanceAs (Decidable (optLeB a.2 b.2 = true))

instance : IsTotal (String × Option Rat) valLe :=
  ⟨by
    intro a b
    rcases a with ⟨s, _ | x⟩ <;> rcases b with ⟨t, _ | y⟩
    all_goals simp [valLe, optLeB]
    exact le_total x y⟩

instance : IsTrans (String × Option Rat) valLe :=
  ⟨by
    intro a b c hab hbc
    rcases a with ⟨s, _ | x⟩ <;> rcases b with ⟨t, _ | y⟩ <;> rcases c with ⟨u, _ | z⟩
    all_goals simp_all [valLe, optLeB]
    exact le_trans hab hbc⟩

/-- Identifier/value pairs of one sub-table of `split_df`
(`df[[df.columns[0], col]]`). -/
def metricPairs (df : DataFrame) (col : String) : List (String × Option Rat) :=
  df.rows.map (fun r => (r.1, dfLookup df r col))

/-- One per-criterion leaderboard:
`sub_df.sort_values(by=col, ascending=True).head(5)`.  The source sort is
pandas quicksort, whose order among tied values is unspecified; insertion
sort realizes one admissible order. -/
def metricTop5 (df : DataFrame) (col : String) : List (String × Option Rat) :=
  (List.insertionSort valLe (metricPairs df col)).take 5

/-- Top-10 table of a ranking dataframe
(`df[[df.columns[0], df.columns[-1]]].head(10)` with a rank column
numbering rows by position). -/
def rankingTable (df : DataFrame) : List (Nat × String × Option Rat) :=
  (df.rows.take 10).enumFrom 1 |>.map (fun ir => (ir.1, ir.2.1, ir.2.2.getLast?))

/-- First 10 entity identifiers of the perturbed ranking
(`perturbated_df.iloc[:10, 0].tolist()`). -/
def topTenSuppliers (df : DataFrame) : List String :=
  (df.rows.take 10).map (fun r => r.1)

/-- Content of the three report sections, in document order. -/
structure ReportDoc where
  initialRanking : List (Nat × String × Option Rat)
  finalRanking : List (Nat × String × Option Rat)
  metricTables : List (String × List (Nat × String × Option Rat))
  perturbationText : String
  radar : RadarChart
deriving DecidableEq, Repr

/-- Pure document assembly of `generate_report`: both top-10 tables, the
per-criterion grid over `initial_df.columns[1:-1]`, the perturbation
narrative, and the radar chart of the perturbed top 10 over baseline
values. -/
def buildDoc (initial_df : DataFrame) (perturbation : String)
    (perturbated_df : DataFrame) : ReportDoc :=
  { initialRanking := rankingTable initial_df
    finalRanking := rankingTable perturbated_df
    metricTables :=
      (initial_df.cols.tail.dropLast).map
        (fun col => (col, ((metricTop5 initial_df col).enumFrom 1).map
          (fun ir => (ir.1, ir.2.1, ir.2.2))))
    perturbationText := perturbation
    radar := create_radar_chart initial_df (topTenSuppliers perturbated_df) }

/-- Injection used to derive decidable equality of `Except` values. -/
def exceptToSum {ε α : Type} : Except ε α → ε ⊕ α
  | Except.error e => Sum.inl e
  | Except.ok a => Sum.inr a

instance {ε α : Type} [DecidableEq ε] [DecidableEq α] : DecidableEq (Except ε α) :=
  fun a b =>
    decidable_of_iff (exceptToSum a = exceptToSum b)
      (by cases a <;> cases b <;> simp [exceptToSum])

/-- Observable outcome of one `generate_report` call. -/
structure ReportRun where
  result : Except String ReportDoc
  tempImageCreated : Bool
  tempImageDeleted : Bool
deriving DecidableEq, Repr

/-- Embedding of `generate_report`: the radar chart (and with it the
temporary image file) is produced before `doc.build`; `os.remove` runs only
after a normal return of `doc.build`, there is no `finally` block. -/
def generate_report (initial_df : DataFrame) (perturbation : String)
    (perturbated_df : DataFrame) (buildRaises : Bool) : ReportRun :=
  let doc := buildDoc initial_df perturbation perturbated_df
  if buildRaises then
    { result := Except.error "ReportLabError", tempImageCreated := true,
      tempImageDeleted := false }
  else
    { result := Except.ok doc, tempImageCreated := true, tempImageDeleted := true }

/-! ## Theorems -/

/-! ### C1 — cleanup of the temporary radar-chart image -/

/-- C1 (counterexample).  A report compilation in which `doc.build` raises:
the temporary radar-chart image was created, the error propagates out of
`generate_report`, and the image is not deleted.  This refutes the claim
that no run leaves the temporary image behind on a failure path. -/
theorem c1_counterexample :
    (generate_report ⟨["S", "C", "Sc"], [("A", [1, 2])]⟩ "p"
        ⟨["S", "C", "Sc"], [("A", [1, 2])]⟩ true).tempImageCreated = true ∧
    (generate_report ⟨["S", "C", "Sc"], [("A", [1, 2])]⟩ "p"
        ⟨["S", "C", "Sc"], [("A", [1, 2])]⟩ true).result =
      Except.error "ReportLabError" ∧
    (generate_report ⟨["S", "C", "Sc"], [("A", [1, 2])]⟩ "p"
        ⟨["S", "C", "Sc"], [("A", [1, 2])]⟩ true).tempImageDeleted = false :=
  ⟨rfl, rfl, rfl⟩

/-- C1 (amended).  The temporary radar-chart image is always created before
document assembly, and it is deleted exactly when `doc.build` returns
normally; when `doc.build` raises, `generate_report` propagates the error
without deleting the image. -/
theorem c1_amended (idf : DataFrame) (pert : String) (pdf : DataFrame) (b : Bool) :
    (generate_report idf pert pdf b).tempImageCreated = true ∧
    (generate_report idf pert pdf b).tempImageDeleted = !b := by
  cases b <;> exact ⟨rfl, rfl⟩

/-! ### C4 — propagation of relocation failures -/

/-- C4 (counterexample).  A run whose relocation to `done/` always fails
while relocation to `ko/` succeeds: the per-job handler catches the
relocation failure and routes the job to `ko/`, and the run returns
normally.  This refutes the claim that a relocation failure to either
terminal area always propagates to the top-level run. -/
theorem c4_counterexample :
    runJobs (fun _ => true) (fun _ t => !(strStarts "done/" t)) ["j/"] =
      Except.ok [("j/", JobAction.movedKo)] := by
  decide

/-- C4 (amended).  A relocation failure on the `ko/` side escapes the
per-job handler and aborts the run, but a relocation failure on the `done/`
side is caught by the handler (the call sits inside the `try` block) and is
converted into a `ko/` relocation of the same job. -/
theorem c4_amended (proc : String → Bool) (relocOk : String → String → Bool)
    (f : String) (hterm : isTerminal f = false) :
    (relocOk f ("ko/" ++ f) = false → (proc f = false ∨ relocOk f ("done/" ++ f) = false) →
      runJobs proc relocOk [f] = Except.error "RelocationError") ∧
    (proc f = true → relocOk f ("done/" ++ f) = false → relocOk f ("ko/" ++ f) = true →
      runJobs proc relocOk [f] = Except.ok [(f, JobAction.movedKo)]) := by
  constructor
  · intro hko hcase
    rcases hcase with hproc | hdone
    · simp [runJobs, List.foldlM, processFolder, hterm, hproc, hko, Except.map]
    · cases hproc : proc f <;>
        simp [runJobs, List.foldlM, processFolder, hterm, hproc, hdone, hko, Except.map]
  · intro hproc hdone hko
    simp [runJobs, List.foldlM, processFolder, hterm, hproc, hdone, hko, Except.map]

/-- C4 (witness).  Concrete instantiation of both parts of the amended
statement. -/
theorem c4_amended_witness :
    isTerminal "j/" = false ∧
    runJobs (fun _ => false) (fun _ _ => false) ["j/"] = Except.error "RelocationError" ∧
    runJobs (fun _ => true) (fun _ t => !(strStarts "done/" t)) ["j/"] =
      Except.ok [("j/", JobAction.movedKo)] :=
  ⟨by decide,
   (c4_amended (fun _ => false) (fun _ _ => false) "j/" (by decide)).1 rfl (Or.inl rfl),
   (c4_amended (fun _ => true) (fun _ t => !(strStarts "done/" t)) "j/" (by decide)).2
     rfl (by decide) (by decide)⟩

/-! ### C5 — per-job errors are caught and routed to `ko/` -/

/-- Helper: one loop iteration returns the prescribed routing decision when
both terminal relocations of the folder succeed. -/
theorem processFolder_eq_routeOf (proc : String → Bool)
    (relocOk : String → String → Bool) (f : String)
    (hdone : relocOk f ("done/" ++ f) = true)
    (hko : relocOk f ("ko/" ++ f) = true) :
    processFolder proc relocOk f = Except.ok (routeOf proc f) := by
  unfold processFolder routeOf
  cases hterm : isTerminal f
  · cases hp : proc f <;> simp [hdone, hko]
  · simp

/-- Helper: the loop, started from any accumulator, visits every folder and
records the prescribed routing decision for each, when relocations
succeed. -/
theorem foldlM_runJobs_ok (proc : String → Bool) (relocOk : String → String → Bool)
    (hdone : ∀ f, relocOk f ("done/" ++ f) = true)
    (hko : ∀ f, relocOk f ("ko/" ++ f) = true) :
    ∀ (folders : List String) (acc : List (String × JobAction)),
      List.foldlM
          (fun acc f => (processFolder proc relocOk f).map (fun a => acc ++ [(f, a)]))
          acc folders
        = Except.ok (acc ++ folders.map (fun f => (f, routeOf proc f))) := by
  intro folders
  induction folders with
  | nil => intro acc; simp [List.foldlM, pure, Except.pure]
  | cons f fs ih =>
    intro acc
    rw [List.foldlM_cons, processFolder_eq_routeOf proc relocOk f (hdone f) (hko f)]
    show List.foldlM _ (acc ++ [(f, routeOf proc f)]) fs = _
    rw [ih (acc ++ [(f, routeOf proc f)]), List.append_assoc]
    rfl

/-- C5.  Whenever the relocations themselves succeed, every discovered
folder is processed: an error raised while loading, ranking, or reporting a
job (`proc f = false`) is caught at the per-job boundary and converted into
a `ko/` relocation of that job, the run returns normally, and every other
folder still receives its own routing decision. -/
theorem c5_errors_routed_ko (proc : String → Bool) (relocOk : String → String → Bool)
    (folders : List String)
    (hdone : ∀ f, relocOk f ("done/" ++ f) = true)
    (hko : ∀ f, relocOk f ("ko/" ++ f) = true) :
    runJobs proc relocOk folders =
      Except.ok (folders.map (fun f => (f, routeOf proc f))) ∧
    ∀ f, f ∈ folders → isTerminal f = false → proc f = false →
      (f, JobAction.movedKo) ∈ folders.map (fun f => (f, routeOf proc f)) := by
  constructor
  · show List.foldlM _ [] folders = _
    rw [foldlM_runJobs_ok proc relocOk hdone hko folders []]
    rfl
  · intro f hf hterm hp
    have : routeOf proc f = JobAction.movedKo := by simp [routeOf, hterm, hp]
    exact List.mem_map.mpr ⟨f, hf, by rw [this]⟩

/-- C5 (witness).  A run with one healthy job, one failing job and one
already-terminal folder: the failing job is routed to `ko/` and all folders
are processed. -/
theorem c5_witness :
    runJobs (fun f => f == "good/") (fun _ _ => true) ["good/", "bad/", "done/x/"] =
      Except.ok [("good/", JobAction.movedDone), ("bad/", JobAction.movedKo),
        ("done/x/", JobAction.skipped)] ∧
    ("bad/", JobAction.movedKo) ∈
      (["good/", "bad/", "done/x/"].map
        (fun f => (f, routeOf (fun f => f == "good/") f))) :=
  ⟨((c5_errors_routed_ko (fun f => f == "good/") (fun _ _ => true)
      ["good/", "bad/", "done/x/"] (fun _ => rfl) (fun _ => rfl)).1).trans (by decide),
   (c5_errors_routed_ko (fun f => f == "good/") (fun _ _ => true)
      ["good/", "bad/", "done/x/"] (fun _ => rfl) (fun _ => rfl)).2 "bad/"
      (by decide) (by decide) (by decide)⟩

/-! ### Loader lemmas shared by C2, C3, C9, C10 -/

/-- Helper: the surviving rows of a table do not change when rows whose
first cell is the literal header token are removed beforehand; the loader's
own header filter removes them anyway. -/
theorem survivingRows_filter_headers (t : List (List (Option String))) :
    survivingRows (t.filter (fun r => !(isHeaderRow r))) = survivingRows t := by
  induction t with
  | nil => rfl
  | cons r rs ih =>
    by_cases hh : isHeaderRow r
    · have hc0 : ((take3 r).c0 == some "Criterion") = true := hh
      by_cases hb : nonBlank r
      · simp [survivingRows, List.filter_cons, hh, hb, hc0] at ih ⊢
        exact ih
      · simp [survivingRows, List.filter_cons, hh, hb] at ih ⊢
        exact ih
    · have hh' : isHeaderRow r = false := by simp [hh]
      have hc0 : ((take3 r).c0 == some "Criterion") = false := hh'
      by_cases hb : nonBlank r
      · simp [survivingRows, List.filter_cons, hh', hb, hc0] at ih ⊢
        exact ih
      · simp [survivingRows, List.filter_cons, hh', hb] at ih ⊢
        exact ih

/-- Helper: the criteria block is a function of the surviving rows. -/
theorem loadCriteria_eq_of_survivingRows {t₁ t₂ : List (List (Option String))}
    (h : survivingRows t₁ = survivingRows t₂) : loadCriteria t₁ = loadCriteria t₂ := by
  simp only [loadCriteria, h]

/-- Helper: the criteria block only depends on the non-header rows of the
table. -/
theorem loadCriteria_eq_of_filter_headers {t₁ t₂ : List (List (Option String))}
    (h : t₁.filter (fun r => !(isHeaderRow r)) = t₂.filter (fun r => !(isHeaderRow r))) :
    loadCriteria t₁ = loadCriteria t₂ := by
  apply loadCriteria_eq_of_survivingRows
  rw [← survivingRows_filter_headers t₁, ← survivingRows_filter_headers t₂, h]

/-! ### C9 — the header filter is idempotent and de-duplicating -/

/-- C9.  Two criteria tables that agree after removing rows whose first cell
is the header token `Criterion` are processed identically: a table with the
header row appearing N times at any positions yields the same
`criteriaConfig` (criteria, weights, direction partition, and even the same
error, if any) as the table with the header appearing once or not at all;
in particular such rows never cause a validation failure by themselves. -/
theorem c9_header_filter_dedup (t₁ t₂ : List (List (Option String)))
    (h : t₁.filter (fun r => !(isHeaderRow r)) = t₂.filter (fun r => !(isHeaderRow r))) :
    loadCriteria t₁ = loadCriteria t₂ :=
  loadCriteria_eq_of_filter_headers h

/-- C9 (witness).  A table with the header row appearing twice, once in the
middle and once at the top, against the same table without any header
rows. -/
theorem c9_witness :
    ([[some "Criterion", some "Weight", some "Beneficial"],
      [some "Cost", some "1", some "False"],
      [some "Criterion", some "Weight", some "Beneficial"],
      [some "Quality", some "2", some "True"]].filter (fun r => !(isHeaderRow r))
      = [[some "Cost", some "1", some "False"],
         [some "Quality", some "2", some "True"]].filter (fun r => !(isHeaderRow r))) ∧
    loadCriteria
        [[some "Criterion", some "Weight", some "Beneficial"],
         [some "Cost", some "1", some "False"],
         [some "Criterion", some "Weight", some "Beneficial"],
         [some "Quality", some "2", some "True"]]
      = loadCriteria
        [[some "Cost", some "1", some "False"],
         [some "Quality", some "2", some "True"]] :=
  ⟨by decide,
   c9_header_filter_dedup
     [[some "Criterion", some "Weight", some "Beneficial"],
      [some "Cost", some "1", some "False"],
      [some "Criterion", some "Weight", some "Beneficial"],
      [some "Quality", some "2", some "True"]]
     [[some "Cost", some "1", some "False"],
      [some "Quality", some "2", some "True"]]
     (by decide)⟩

/-! ### C10 — a criterion literally named `Criterion` is silently dropped -/

/-- Helper: an entry of an upserted dict either was present before or
carries the inserted key. -/
theorem dictUpsert_mem {m : List (Option String × Option Rat)}
    {k : Option String} {v : Option Rat} {kv : Option String × Option Rat}
    (h : kv ∈ dictUpsert m k v) : kv ∈ m ∨ kv.1 = k := by
  induction m with
  | nil =>
    simp [dictUpsert] at h
    right; rw [h]
  | cons p rest ih =>
    obtain ⟨k₀, v₀⟩ := p
    by_cases hk : k₀ = k
    · simp [dictUpsert, hk] at h
      rcases h with h | h
      · right; rw [h]
      · left; exact List.mem_cons_of_mem _ h
    · simp [dictUpsert, hk] at h
      rcases h with h | h
      · left; simp [h]
      · rcases ih h with h₂ | h₂
        · left; exact List.mem_cons_of_mem _ h₂
        · right; exact h₂

/-- Helper: every key of the weights dict built by the loader is the first
cell of some surviving row. -/
theorem weights_key_mem (rows : List Row3) (f : Row3 → Option Rat) :
    ∀ (acc : List (Option String × Option Rat))
      (kv : Option String × Option Rat),
      kv ∈ rows.foldl (fun m q => dictUpsert m q.c0 (f q)) acc →
      kv ∈ acc ∨ ∃ q ∈ rows, kv.1 = q.c0 := by
  induction rows with
  | nil => intro acc kv h; exact Or.inl h
  | cons r rs ih =>
    intro acc kv h
    rcases ih (dictUpsert acc r.c0 (f r)) kv h with h₁ | h₁
    · rcases dictUpsert_mem h₁ with h₂ | h₂
      · exact Or.inl h₂
      · exact Or.inr ⟨r, List.mem_cons_self r rs, h₂⟩
    · obtain ⟨q, hq, hkv⟩ := h₁
      exact Or.inr ⟨q, List.mem_cons_of_mem _ hq, hkv⟩

/-- Helper: no surviving row carries the header token as its first cell. -/
theorem survivingRows_c0_ne (t : List (List (Option String))) :
    ∀ q ∈ survivingRows t, q.c0 ≠ some "Criterion" := by
  intro q hq
  have := List.of_mem_filter hq
  simpa using this

/-- C10.  The header filter removes every row whose first cell equals the
literal `Criterion`, whatever its weight and beneficial cells hold, so a
genuine criterion named `Criterion` is silently excluded: the processing
result is as if the row were absent, and no key of the weights dict and no
entry of either direction list can be `Criterion`; no error is reported for
such a row. -/
theorem c10_criterion_row_dropped :
    (∀ (pre post : List (List (Option String))) (w b : Option String),
        loadCriteria (pre ++ [some "Criterion", w, b] :: post) =
          loadCriteria (pre ++ post)) ∧
    (∀ (t : List (List (Option String))) (cfg : CriteriaConfig),
        loadCriteria t = Except.ok cfg →
        (∀ kv ∈ cfg.weights, kv.1 ≠ some "Criterion") ∧
        some "Criterion" ∉ cfg.beneficial ∧
        some "Criterion" ∉ cfg.nonBeneficial) := by
  constructor
  · intro pre post w b
    apply loadCriteria_eq_of_filter_headers
    have hrow : isHeaderRow [some "Criterion", w, b] = true := by
      simp [isHeaderRow, cellAt]
    simp [List.filter_append, List.filter_cons, hrow]
  · intro t cfg hok
    have hne := survivingRows_c0_ne t
    rw [loadCriteria] at hok
    by_cases hmask :
        (((survivingRows t).map (fun q => toBeneficial q.c2)).all Option.isSome) = true
    · rw [if_pos hmask] at hok
      injection hok with hok
      subst hok
      refine ⟨?_, ?_, ?_⟩
      · intro kv hkv
        rcases weights_key_mem (survivingRows t) _ [] kv hkv with h | ⟨q, hq, hkv1⟩
        · simp at h
        · rw [hkv1]; exact hne q hq
      · intro hmem
        obtain ⟨q, hq, hq0⟩ := List.mem_map.mp hmem
        exact hne q (List.mem_of_mem_filter hq) hq0
      · intro hmem
        obtain ⟨q, hq, hq0⟩ := List.mem_map.mp hmem
        exact hne q (List.mem_of_mem_filter hq) hq0
    · rw [if_neg hmask] at hok
      exact absurd hok (by simp)

/-- C10 (witness).  A table whose second row is a real criterion named
`Criterion` with a numeric weight and a valid direction: the row vanishes
without an error, and the resulting configuration never mentions it. -/
theorem c10_witness :
    loadCriteria [[some "Cost", some "1", some "False"],
                  [some "Criterion", some "3", some "True"]]
      = loadCriteria [[some "Cost", some "1", some "False"]] ∧
    (∀ kv ∈ (CriteriaConfig.mk [] [some "Cost"] [(some "Cost", some 1)]).weights,
        kv.1 ≠ some "Criterion") :=
  ⟨c10_criterion_row_dropped.1 [[some "Cost", some "1", some "False"]] []
     (some "3") (some "True"),
   (c10_criterion_row_dropped.2
     [[some "Cost", some "1", some "False"],
      [some "Criterion", some "3", some "True"]]
     (CriteriaConfig.mk [] [some "Cost"] [(some "Cost", some 1)]) (by decide)).1⟩

/-! ### C2 — a weight cell that fails numeric coercion is not rejected -/

/-- Helper: upserting a fresh key appends the pair. -/
theorem dictUpsert_fresh {m : List (Option String × Option Rat)}
    {k : Option String} (v : Option Rat) (h : k ∉ m.map Prod.fst) :
    dictUpsert m k v = m ++ [(k, v)] := by
  induction m with
  | nil => rfl
  | cons p rest ih =>
    obtain ⟨k₀, v₀⟩ := p
    simp only [List.map_cons, List.mem_cons, not_or] at h
    rw [dictUpsert, if_neg (fun hc => h.1 hc.symm), ih h.2, List.cons_append]

/-- Helper: with pairwise-distinct keys the dict built by the loader's fold
is the literal key/value list. -/
theorem weights_fold_of_nodup (f : Row3 → Option Rat) :
    ∀ (rows : List Row3) (acc : List (Option String × Option Rat)),
      (rows.map Row3.c0).Nodup →
      (∀ q ∈ rows, q.c0 ∉ acc.map Prod.fst) →
      rows.foldl (fun m q => dictUpsert m q.c0 (f q)) acc
        = acc ++ rows.map (fun q => (q.c0, f q)) := by
  intro rows
  induction rows with
  | nil => intro acc _ _; simp
  | cons r rs ih =>
    intro acc hnd hfresh
    have hr : r.c0 ∉ acc.map Prod.fst := hfresh r (List.mem_cons_self r rs)
    have hstep : dictUpsert acc r.c0 (f r) = acc ++ [(r.c0, f r)] :=
      dictUpsert_fresh (f r) hr
    have hnd' : (rs.map Row3.c0).Nodup := (List.nodup_cons.mp hnd).2
    have hhead : r.c0 ∉ rs.map Row3.c0 := (List.nodup_cons.mp hnd).1
    have hfresh' : ∀ q ∈ rs, q.c0 ∉ (acc ++ [(r.c0, f r)]).map Prod.fst := by
      intro q hq
      simp only [List.map_append, List.mem_append]
      intro hc
      rcases hc with hc | hc
      · exact hfresh q (List.mem_cons_of_mem _ hq) hc
      · simp at hc
        exact hhead (hc ▸ List.mem_map_of_mem Row3.c0 hq)
    calc (r :: rs).foldl (fun m q => dictUpsert m q.c0 (f q)) acc
        = rs.foldl (fun m q => dictUpsert m q.c0 (f q)) (acc ++ [(r.c0, f r)]) := by
          rw [List.foldl_cons, hstep]
      _ = acc ++ [(r.c0, f r)] ++ rs.map (fun q => (q.c0, f q)) := ih _ hnd' hfresh'
      _ = acc ++ (r :: rs).map (fun q => (q.c0, f q)) := by simp

/-- Helper: looking up the key of a listed row in the key/value list built
from rows with pairwise-distinct keys returns that row's value. -/
theorem dictFind_map_of_nodup (f : Row3 → Option Rat) :
    ∀ (rows : List Row3) (q : Row3), q ∈ rows → (rows.map Row3.c0).Nodup →
      dictFind (rows.map (fun r => (r.c0, f r))) q.c0 = some (f q) := by
  intro rows
  induction rows with
  | nil => intro q hq; simp at hq
  | cons r rs ih =>
    intro q hq hnd
    rcases List.mem_cons.mp hq with hq | hq
    · subst hq
      simp [dictFind, List.find?]
    · have hhead : r.c0 ∉ rs.map Row3.c0 := (List.nodup_cons.mp hnd).1
      have hne : (r.c0 == q.c0) = false := by
        rw [beq_eq_false_iff_ne]
        intro hc
        exact hhead (hc ▸ List.mem_map_of_mem Row3.c0 hq)
      have := ih q hq (List.nodup_cons.mp hnd).2
      simpa [dictFind, List.find?, hne] using this

/-- C2 (counterexample).  A criteria table whose only row has the
non-numeric weight cell `abc` (and a valid direction token): `loadJob` does
not fail; it returns a Job whose weights dict maps `Cost` to an unset (NaN)
weight.  This refutes the claim that such a table always produces a
`ValidationError` and never a Job with an unset weight. -/
theorem c2_counterexample :
    loadJob [[some "Cost", some "abc", some "False"]]
        ["Batch 2024-01", "Acme Corp", "ops@acme.com"]
        ⟨["Supplier", "Cost", "Score"], [("A", [1, 2])]⟩
      = Except.ok
          ⟨⟨[], [some "Cost"], [(some "Cost", none)]⟩, "Acme Corp", "ops@acme.com",
            ⟨["Supplier", "Cost", "Score"], [("A", [1, 2])]⟩⟩ ∧
    dictFind [(some "Cost", none)] (some "Cost") = some none := by
  exact ⟨by decide, by decide⟩

/-- C2 (amended).  A weight cell that fails numeric coercion does not by
itself make `loadJob` fail: whenever the load succeeds (valid direction
cells, sufficient company lines), the returned Job's weights dict holds the
unset value (NaN, modelled `none`) for that row's criterion.  Stated for
tables whose surviving criterion names are pairwise distinct, matching the
uniqueness invariant of the data model. -/
theorem c2_amended (t : List (List (Option String))) (lines : List String)
    (df : DataFrame) (job : Job) (q : Row3)
    (hq : q ∈ survivingRows t)
    (hw : toNumericCoerce q.c1 = none)
    (hnd : ((survivingRows t).map Row3.c0).Nodup)
    (hok : loadJob t lines df = Except.ok job) :
    dictFind job.config.weights q.c0 = some none := by
  rw [loadJob] at hok
  cases hc : loadCriteria t with
  | error e => rw [hc] at hok; exact absurd hok (by simp)
  | ok cfg =>
    rw [hc] at hok
    cases hp : processCompanyLines lines with
    | none => rw [hp] at hok; exact absurd hok (by simp)
    | some ne =>
      obtain ⟨n, e⟩ := ne
      rw [hp] at hok
      injection hok with hok
      have hcfg : job.config = cfg := by rw [← hok]
      rw [loadCriteria] at hc
      by_cases hmask :
          (((survivingRows t).map (fun r => toBeneficial r.c2)).all Option.isSome) = true
      · rw [if_pos hmask] at hc
        injection hc with hc
        have hwts : cfg.weights
            = (survivingRows t).map (fun r => (r.c0, toNumericCoerce r.c1)) := by
          rw [← hc]
          exact weights_fold_of_nodup _ (survivingRows t) [] hnd (by simp)
        rw [hcfg, hwts, dictFind_map_of_nodup _ (survivingRows t) q hq hnd, hw]
      · rw [if_neg hmask] at hc
        exact absurd hc (by simp)

/-- C2 (witness).  The amended statement applied to the counterexample
table. -/
theorem c2_amended_witness :
    (⟨some "Cost", some "abc", some "False"⟩ : Row3) ∈
      survivingRows [[some "Cost", some "abc", some "False"]] ∧
    toNumericCoerce (some "abc") = none ∧
    dictFind
        (Job.config ⟨⟨[], [some "Cost"], [(some "Cost", none)]⟩, "Acme Corp",
          "ops@acme.com", ⟨["Supplier", "Cost", "Score"], [("A", [1, 2])]⟩⟩).weights
        (some "Cost")
      = some none :=
  ⟨by decide, by decide,
   c2_amended [[some "Cost", some "abc", some "False"]]
     ["Batch 2024-01", "Acme Corp", "ops@acme.com"]
     ⟨["Supplier", "Cost", "Score"], [("A", [1, 2])]⟩
     ⟨⟨[], [some "Cost"], [(some "Cost", none)]⟩, "Acme Corp", "ops@acme.com",
       ⟨["Supplier", "Cost", "Score"], [("A", [1, 2])]⟩⟩
     ⟨some "Cost", some "abc", some "False"⟩
     (by decide) (by decide) (by decide) (by decide)⟩

/-! ### C3 — no cross-check of criteria keys against dataset columns -/

/-- C3 (counterexample).  A job whose criteria table names only `Cost` while
the dataset's middle column is `Quality`: loading succeeds, and the
criteria keys do not equal the dataset's middle column names.  This refutes
the claim that a successful load guarantees key/column agreement and that a
missing criterion column produces a `ValidationError`. -/
theorem c3_counterexample :
    loadJob [[some "Cost", some "2", some "False"]]
        ["Batch 2024-01", "Acme Corp", "ops@acme.com"]
        ⟨["Supplier", "Quality", "Score"], [("A", [1, 2])]⟩
      = Except.ok
          ⟨⟨[], [some "Cost"], [(some "Cost", some 2)]⟩, "Acme Corp", "ops@acme.com",
            ⟨["Supplier", "Quality", "Score"], [("A", [1, 2])]⟩⟩ ∧
    (DataFrame.cols ⟨["Supplier", "Quality", "Score"], [("A", [1, 2])]⟩).tail.dropLast
      = ["Quality"] ∧
    some "Quality" ∉ ([(some "Cost", some (2 : Rat))].map Prod.fst) ∧
    some "Cost" ∈ ([(some "Cost", some (2 : Rat))].map Prod.fst) := by
  exact ⟨by decide, by decide, by decide, by decide⟩

/-- C3 (amended).  The loader performs no validation of the dataset against
the criteria configuration: whether `loadJob` succeeds, and every field of
the returned Job except the stored dataset itself, is independent of the
dataset.  Consequently a Job whose criteria keys differ from the dataset's
middle column names can be returned, and a missing criterion column never
causes a `ValidationError`. -/
theorem c3_amended (t : List (List (Option String))) (lines : List String)
    (df df₂ : DataFrame) (job : Job)
    (hok : loadJob t lines df = Except.ok job) :
    loadJob t lines df₂ = Except.ok { job with dataset := df₂ } := by
  cases hc : loadCriteria t with
  | error e =>
    rw [loadJob, hc] at hok
    exact absurd hok (by simp)
  | ok cfg =>
    cases hp : processCompanyLines lines with
    | none =>
      rw [loadJob, hc, hp] at hok
      exact absurd hok (by simp)
    | some ne =>
      obtain ⟨n, e⟩ := ne
      rw [loadJob, hc, hp] at hok
      rw [loadJob, hc, hp]
      injection hok with hok
      rw [← hok]

/-- C3 (witness).  The amended statement applied to the counterexample job
and a second, entirely different dataset. -/
theorem c3_amended_witness :
    loadJob [[some "Cost", some "2", some "False"]]
        ["Batch 2024-01", "Acme Corp", "ops@acme.com"]
        ⟨["Supplier", "Cost", "Score"], [("B", [3, 4]), ("C", [5, 6])]⟩
      = Except.ok
          ⟨⟨[], [some "Cost"], [(some "Cost", some 2)]⟩, "Acme Corp", "ops@acme.com",
            ⟨["Supplier", "Cost", "Score"], [("B", [3, 4]), ("C", [5, 6])]⟩⟩ :=
  c3_amended [[some "Cost", some "2", some "False"]]
    ["Batch 2024-01", "Acme Corp", "ops@acme.com"]
    ⟨["Supplier", "Quality", "Score"], [("A", [1, 2])]⟩
    ⟨["Supplier", "Cost", "Score"], [("B", [3, 4]), ("C", [5, 6])]⟩
    ⟨⟨[], [some "Cost"], [(some "Cost", some 2)]⟩, "Acme Corp", "ops@acme.com",
      ⟨["Supplier", "Quality", "Score"], [("A", [1, 2])]⟩⟩
    (by decide)

/-! ### C7 — radar chart: perturbed selection, baseline values -/

/-- C7.  In every compiled report, the radar chart is built from the first
10 identifiers of the perturbed ranking (in the order returned, with no
re-sorting), and — provided those identifiers occur in the baseline
dataset, as they do for rankings derived from it — the plotted entity set
equals that selection, and every plotted series carries the entity's raw
baseline values over the criterion columns `columns[1:-1]` of the baseline
dataset, not anything derived from the perturbed ranking. -/
theorem c7_radar_chart (idf : DataFrame) (pert : String) (pdf : DataFrame)
    (hcov : ∀ s ∈ topTenSuppliers pdf, s ∈ idf.rows.map Prod.fst) :
    (buildDoc idf pert pdf).radar = create_radar_chart idf (topTenSuppliers pdf) ∧
    (∀ s, s ∈ (buildDoc idf pert pdf).radar.series.map Prod.fst ↔
      s ∈ topTenSuppliers pdf) ∧
    (∀ sv ∈ (buildDoc idf pert pdf).radar.series,
      ∃ r ∈ idf.rows, r.1 = sv.1 ∧
        sv.2 = (idf.cols.tail.dropLast).map (fun m => dfLookup idf r m)) := by
  refine ⟨rfl, ?_, ?_⟩
  · intro s
    show s ∈ (create_radar_chart idf (topTenSuppliers pdf)).series.map Prod.fst ↔ _
    simp only [create_radar_chart, List.map_map, List.mem_map, Function.comp,
      List.mem_filter, decide_eq_true_eq]
    constructor
    · rintro ⟨r, ⟨hr, hmem⟩, rfl⟩
      exact hmem
    · intro hs
      obtain ⟨r, hr, hrs⟩ := List.mem_map.mp (hcov s hs)
      exact ⟨r, ⟨hr, hrs ▸ hs⟩, hrs⟩
  · intro sv hsv
    obtain ⟨r, hr, hsv⟩ := List.mem_map.mp hsv
    exact ⟨r, List.mem_of_mem_filter hr, by rw [← hsv], by rw [← hsv]⟩

/-- C7 (witness).  A perturbed ranking whose leader differs from the
baseline's: the chart plots exactly the perturbed top entities with their
baseline values. -/
theorem c7_witness :
    (∀ s ∈ topTenSuppliers ⟨["S", "C", "Sc"], [("B", [7, 1]), ("A", [1, 2])]⟩,
      s ∈ (DataFrame.rows ⟨["S", "C", "Sc"], [("A", [1, 2]), ("B", [7, 1])]⟩).map
        Prod.fst) ∧
    ("B" ∈ (buildDoc ⟨["S", "C", "Sc"], [("A", [1, 2]), ("B", [7, 1])]⟩ "p"
        ⟨["S", "C", "Sc"], [("B", [7, 1]), ("A", [1, 2])]⟩).radar.series.map Prod.fst ↔
      "B" ∈ topTenSuppliers ⟨["S", "C", "Sc"], [("B", [7, 1]), ("A", [1, 2])]⟩) :=
  ⟨by decide,
   (c7_radar_chart ⟨["S", "C", "Sc"], [("A", [1, 2]), ("B", [7, 1])]⟩ "p"
     ⟨["S", "C", "Sc"], [("B", [7, 1]), ("A", [1, 2])]⟩ (by decide)).2.1 "B"⟩

/-! ### C8 — per-criterion leaderboards: lowest five, ascending -/

/-- C8.  The Section 1 grid holds one leaderboard per criterion column of
the baseline dataset (all columns except the first, identifier, and the
last, aggregate score), and each leaderboard consists of the five rows
with the lowest raw value of that criterion, listed in ascending order of
that value: the kept rows together with the dropped rows permute the full
column, every kept value is at most every dropped value, and exactly
`min 5 n` rows are kept.  The selection consults only raw values, never a
beneficial/non-beneficial direction (none is even passed to the
compiler). -/
theorem c8_metric_leaderboards (idf : DataFrame) (pert : String)
    (pdf : DataFrame) (col : String) :
    (buildDoc idf pert pdf).metricTables
      = (idf.cols.tail.dropLast).map
          (fun c => (c, ((metricTop5 idf c).enumFrom 1).map
            (fun ir => (ir.1, ir.2.1, ir.2.2)))) ∧
    List.Sorted valLe (metricTop5 idf col) ∧
    List.Perm
      (metricTop5 idf col ++ (List.insertionSort valLe (metricPairs idf col)).drop 5)
      (metricPairs idf col) ∧
    (∀ x ∈ metricTop5 idf col,
      ∀ y ∈ (List.insertionSort valLe (metricPairs idf col)).drop 5, valLe x y) ∧
    (metricTop5 idf col).length = min 5 (metricPairs idf col).length := by
  refine ⟨rfl, ?_, ?_, ?_, ?_⟩
  · exact List.Pairwise.sublist (List.take_sublist 5 _)
      (List.sorted_insertionSort valLe _)
  · rw [metricTop5, List.take_append_drop]
    exact List.perm_insertionSort valLe _
  · intro x hx y hy
    exact (List.sorted_insertionSort valLe _).rel_of_mem_take_of_mem_drop hx hy
  · rw [metricTop5, List.length_take, List.length_insertionSort]

/-- C8 (witness).  A three-supplier dataset: the `C` leaderboard keeps all
three rows ascending in the raw `C` value. -/
theorem c8_witness :
    metricTop5 ⟨["S", "C", "D", "Sc"],
        [("A", [3, 1, 9]), ("B", [1, 2, 8]), ("C", [2, 0, 7])]⟩ "C"
      = [("B", some 1), ("C", some 2), ("A", some 3)] ∧
    (metricTop5 ⟨["S", "C", "D", "Sc"],
        [("A", [3, 1, 9]), ("B", [1, 2, 8]), ("C", [2, 0, 7])]⟩ "C").length
      = min 5 (metricPairs ⟨["S", "C", "D", "Sc"],
        [("A", [3, 1, 9]), ("B", [1, 2, 8]), ("C", [2, 0, 7])]⟩ "C").length :=
  ⟨by decide,
   (c8_metric_leaderboards ⟨["S", "C", "D", "Sc"],
     [("A", [3, 1, 9]), ("B", [1, 2, 8]), ("C", [2, 0, 7])]⟩ "p"
     ⟨["S", "C", "D", "Sc"], [("A", [3, 1, 9])]⟩ "C").2.2.2.2⟩

/-! ### C6 — correctness of `move_folder` -/

/-- Helper: removing all entries at one key does not change lookups at other
keys. -/
theorem find?_key_filter_ne (rest : List (Key × Nat)) (k k₀ : Key) (h : k ≠ k₀) :
    (rest.filter (fun kv => decide (kv.1 ≠ k₀))).find? (fun kv => decide (kv.1 = k))
      = rest.find? (fun kv => decide (kv.1 = k)) := by
  induction rest with
  | nil => rfl
  | cons kv r ih =>
    rw [List.filter_cons]
    by_cases hk : kv.1 = k₀
    · have h1 : (decide (kv.1 ≠ k₀)) = false := decide_eq_false (by simp [hk])
      have h2 : (decide (kv.1 = k)) = false :=
        decide_eq_false (fun hc => h (by rw [← hc, hk]))
      rw [h1, if_neg (by simp), List.find?_cons, h2]
      exact ih
    · have h1 : (decide (kv.1 ≠ k₀)) = true := decide_eq_true hk
      rw [h1, if_pos rfl, List.find?_cons, List.find?_cons]
      cases h2 : decide (kv.1 = k) with
      | true => rfl
      | false => exact ih

/-- Helper: the deleted key has no entry left to find. -/
theorem find?_key_filter_self (rest : List (Key × Nat)) (k₀ : Key) :
    (rest.filter (fun kv => decide (kv.1 ≠ k₀))).find? (fun kv => decide (kv.1 = k₀))
      = none := by
  induction rest with
  | nil => rfl
  | cons kv r ih =>
    rw [List.filter_cons]
    by_cases hk : kv.1 = k₀
    · have h1 : (decide (kv.1 ≠ k₀)) = false := decide_eq_false (by simp [hk])
      rw [h1, if_neg (by simp)]
      exact ih
    · have h1 : (decide (kv.1 ≠ k₀)) = true := decide_eq_true hk
      rw [h1, if_pos rfl, List.find?_cons, decide_eq_false hk]
      exact ih

/-- Helper: removing all entries at one key does not change lookups at
other keys. -/
theorem getObject_deleteObject_ne (st : S3State) {k k₀ : Key} (h : k ≠ k₀) :
    getObject (deleteObject st k₀) k = getObject st k := by
  simp only [getObject, deleteObject]
  rw [find?_key_filter_ne st k k₀ h]

/-- Helper: after deletion the deleted key reads back empty. -/
theorem getObject_deleteObject_self (st : S3State) (k₀ : Key) :
    getObject (deleteObject st k₀) k₀ = none := by
  simp only [getObject, deleteObject]
  rw [find?_key_filter_self st k₀]
  rfl

/-- Helper: a write is observed at the written key. -/
theorem getObject_putObject_self (st : S3State) (k₀ : Key) (v : Nat) :
    getObject (putObject st k₀ v) k₀ = some v := by
  rw [putObject, getObject, List.find?_cons]
  simp

/-- Helper: a write does not change lookups at other keys. -/
theorem getObject_putObject_ne (st : S3State) {k k₀ : Key} (v : Nat) (h : k ≠ k₀) :
    getObject (putObject st k₀ v) k = getObject st k := by
  rw [putObject, getObject, List.find?_cons]
  have h₂ : (decide (k₀ = k)) = false := by
    simp only [decide_eq_false_iff_not]
    exact fun hc => h hc.symm
  rw [h₂]
  exact getObject_deleteObject_ne st h

/-- Helper: deletion preserves distinctness of the stored keys. -/
theorem nodupKeys_deleteObject {st : S3State} (k₀ : Key)
    (h : (st.map Prod.fst).Nodup) : ((deleteObject st k₀).map Prod.fst).Nodup :=
  h.sublist (List.Sublist.map Prod.fst (List.filter_sublist st))

/-- Helper: a write preserves distinctness of the stored keys. -/
theorem nodupKeys_putObject {st : S3State} (k₀ : Key) (v : Nat)
    (h : (st.map Prod.fst).Nodup) : ((putObject st k₀ v).map Prod.fst).Nodup := by
  rw [putObject, List.map_cons, List.nodup_cons]
  refine ⟨?_, nodupKeys_deleteObject k₀ h⟩
  intro hmem
  obtain ⟨kv, hkv, hk⟩ := List.mem_map.mp hmem
  have := List.of_mem_filter hkv
  rw [decide_eq_true_eq] at this
  exact this hk

/-- Helper: with distinct keys, a stored entry is what its key reads back. -/
theorem getObject_of_mem {st : S3State} (hnd : (st.map Prod.fst).Nodup)
    {kv : Key × Nat} (h : kv ∈ st) : getObject st kv.1 = some kv.2 := by
  induction st with
  | nil => simp at h
  | cons a rest ih =>
    rcases List.mem_cons.mp h with h | h
    · subst h
      rw [getObject, List.find?_cons]
      simp
    · have hhead : a.1 ∉ rest.map Prod.fst := (List.nodup_cons.mp (List.map_cons Prod.fst a rest ▸ hnd)).1
      have hne : (decide (a.1 = kv.1)) = false := by
        simp only [decide_eq_false_iff_not]
        intro hc
        exact hhead (hc ▸ List.mem_map_of_mem Prod.fst h)
      rw [getObject, List.find?_cons, hne]
      exact ih ((List.nodup_cons.mp (List.map_cons Prod.fst a rest ▸ hnd)).2) h

/-- Helper: a successful lookup exhibits a stored entry. -/
theorem mem_of_getObject {st : S3State} {k : Key} {v : Nat}
    (h : getObject st k = some v) : (k, v) ∈ st := by
  rw [getObject] at h
  obtain ⟨kv, hfind, hv⟩ := Option.map_eq_some.mp h
  have hmem := List.mem_of_find?_eq_some hfind
  have hk := List.find?_some hfind
  rw [decide_eq_true_eq] at hk
  obtain ⟨k₁, v₁⟩ := kv
  cases hk
  cases hv
  exact hmem

/-- Helper: a source-range key is never a prefix of a retargeted key, when
the source range is not a prefix of the (longer) target range. -/
theorem not_prefix_target {p tgt : Key} (hlen : p.length ≤ tgt.length)
    (hsep : ¬ p <+: tgt) : ∀ r, ¬ p <+: (tgt ++ r) := fun r hpre =>
  hsep (List.prefix_of_prefix_length_le hpre (List.prefix_append tgt r) hlen)

/-- Helper: on a key that starts with the search pattern, Python
`replace(pat, rep, 1)` substitutes the leading occurrence. -/
theorem replaceFirst_of_prefix {k p : Key} (tgt : Key) (h : p <+: k) :
    replaceFirst k p tgt = tgt ++ k.drop p.length := by
  cases k with
  | nil =>
    have hp : p = [] := List.prefix_nil.mp h
    subst hp
    simp [replaceFirst]
  | cons c cs =>
    rw [replaceFirst, if_pos h]

/-- Helper: full characterization of the `move_folder` fold over a listing
`L` of source objects: afterwards no listed key is present, every listed
object is present at its retargeted key with its value, and every other key
is untouched; key distinctness is preserved. -/
theorem move_fold_spec {p tgt : Key} (hlen : p.length ≤ tgt.length)
    (hsep : ¬ p <+: tgt) :
    ∀ (L : List (Key × Nat)) (s : S3State),
      (s.map Prod.fst).Nodup →
      (L.map Prod.fst).Nodup →
      (∀ kv ∈ L, p <+: kv.1) →
      (∀ kv ∈ L, getObject s kv.1 = some kv.2) →
      ((L.foldl (moveStep p tgt) s).map Prod.fst).Nodup ∧
      (∀ kv ∈ L, getObject (L.foldl (moveStep p tgt) s) kv.1 = none) ∧
      (∀ kv ∈ L, getObject (L.foldl (moveStep p tgt) s)
          (tgt ++ kv.1.drop p.length) = some kv.2) ∧
      (∀ k, k ∉ L.map Prod.fst →
        (∀ kv ∈ L, tgt ++ kv.1.drop p.length ≠ k) →
        getObject (L.foldl (moveStep p tgt) s) k = getObject s k) := by
  intro L
  induction L with
  | nil =>
    intro s hnd _ _ _
    exact ⟨hnd, by simp, by simp, fun k _ _ => rfl⟩
  | cons kv L ih =>
    intro s hnd hndL hLP hLs
    have hpk : p <+: kv.1 := hLP kv (List.mem_cons_self kv L)
    have hget : getObject s kv.1 = some kv.2 := hLs kv (List.mem_cons_self kv L)
    have hnotp : ∀ r, ¬ p <+: (tgt ++ r) := not_prefix_target hlen hsep
    have hstep : moveStep p tgt s kv
        = deleteObject (putObject s (tgt ++ kv.1.drop p.length) kv.2) kv.1 := by
      rw [moveStep, replaceFirst_of_prefix tgt hpk, copyObject, hget]
    have hrkne : tgt ++ kv.1.drop p.length ≠ kv.1 := by
      intro hc
      apply hnotp (kv.1.drop p.length)
      rw [hc]
      exact hpk
    have hnd₁ : ((moveStep p tgt s kv).map Prod.fst).Nodup := by
      rw [hstep]
      exact nodupKeys_deleteObject _ (nodupKeys_putObject _ _ hnd)
    have hndL₂ : (kv.1 :: L.map Prod.fst).Nodup := by simpa using hndL
    have hheadout : kv.1 ∉ L.map Prod.fst := (List.nodup_cons.mp hndL₂).1
    have hndL' : (L.map Prod.fst).Nodup := (List.nodup_cons.mp hndL₂).2
    have hdecomp : ∀ kv₂, kv₂ ∈ kv :: L → p ++ kv₂.1.drop p.length = kv₂.1 := by
      intro kv₂ hkv₂
      obtain ⟨r, hr⟩ := hLP kv₂ hkv₂
      rw [← hr, List.drop_left]
    have hLs' : ∀ kv₂ ∈ L, getObject (moveStep p tgt s kv) kv₂.1 = some kv₂.2 := by
      intro kv₂ hkv₂
      have h1 : kv₂.1 ≠ kv.1 := by
        intro hc
        exact hheadout (hc ▸ List.mem_map_of_mem Prod.fst hkv₂)
      have h2 : kv₂.1 ≠ tgt ++ kv.1.drop p.length := by
        intro hc
        apply hnotp (kv.1.drop p.length)
        rw [← hc]
        exact hLP kv₂ (List.mem_cons_of_mem kv hkv₂)
      rw [hstep, getObject_deleteObject_ne _ h1, getObject_putObject_ne _ _ h2]
      exact hLs kv₂ (List.mem_cons_of_mem kv hkv₂)
    obtain ⟨H1, H2, H3, H4⟩ := ih (moveStep p tgt s kv) hnd₁ hndL'
      (fun kv₂ hkv₂ => hLP kv₂ (List.mem_cons_of_mem kv hkv₂)) hLs'
    rw [List.foldl_cons]
    refine ⟨H1, ?_, ?_, ?_⟩
    · intro kv₂ hkv₂
      rcases List.mem_cons.mp hkv₂ with rfl | h
      · have h2 : ∀ kv₃ ∈ L, tgt ++ kv₃.1.drop p.length ≠ kv₂.1 := by
          intro kv₃ _ hc
          apply hnotp (kv₃.1.drop p.length)
          rw [hc]
          exact hpk
        rw [H4 kv₂.1 hheadout h2, hstep, getObject_deleteObject_self]
      · exact H2 kv₂ h
    · intro kv₂ hkv₂
      rcases List.mem_cons.mp hkv₂ with rfl | h
      · have hout : tgt ++ kv₂.1.drop p.length ∉ L.map Prod.fst := by
          intro hc
          obtain ⟨kv₃, hkv₃, hk₃⟩ := List.mem_map.mp hc
          apply hnotp (kv₂.1.drop p.length)
          rw [← hk₃]
          exact hLP kv₃ (List.mem_cons_of_mem kv₂ hkv₃)
        have hout₂ : ∀ kv₃ ∈ L,
            tgt ++ kv₃.1.drop p.length ≠ tgt ++ kv₂.1.drop p.length := by
          intro kv₃ hkv₃ hc
          have hdr : kv₃.1.drop p.length = kv₂.1.drop p.length :=
            List.append_cancel_left hc
          have heq : kv₃.1 = kv₂.1 := by
            rw [← hdecomp kv₃ (List.mem_cons_of_mem kv₂ hkv₃), hdr,
              hdecomp kv₂ (List.mem_cons_self kv₂ L)]
          exact hheadout (heq ▸ List.mem_map_of_mem Prod.fst hkv₃)
        rw [H4 _ hout hout₂, hstep, getObject_deleteObject_ne _ hrkne,
          getObject_putObject_self]
      · exact H3 kv₂ h
    · intro k hk hk₂
      rw [List.map_cons] at hk
      have hkkv : k ≠ kv.1 := fun hc => hk (hc ▸ List.mem_cons_self _ _)
      have hkL : k ∉ L.map Prod.fst := fun hc => hk (List.mem_cons_of_mem _ hc)
      have hktgt : k ≠ tgt ++ kv.1.drop p.length :=
        fun hc => hk₂ kv (List.mem_cons_self kv L) hc.symm
      rw [H4 k hkL (fun kv₃ hkv₃ => hk₂ kv₃ (List.mem_cons_of_mem kv hkv₃)),
        hstep, getObject_deleteObject_ne _ hkkv, getObject_putObject_ne _ _ hktgt]

/-- C6.  After `move_folder(p, done/p)` completes on a store with distinct
keys, no initial objects under `done/p`, and a source range not a prefix of
the target range (true of every job folder, which never starts with
`done/`), listing `p` yields no objects, and an object sits under `done/p`
at a relative path exactly when the original store had that object at the
same relative path under `p` — the original object set, values included. -/
theorem c6_move_folder_relocates (st : S3State) (p : Key)
    (hnd : (st.map Prod.fst).Nodup)
    (hsep : ¬ p <+: ("done/".data ++ p))
    (hclean : ∀ kv ∈ st, ¬ ("done/".data ++ p) <+: kv.1)
    (_hne : listAllObjects st p ≠ []) :
    listAllObjects (move_folder st p ("done/".data ++ p)) p = [] ∧
    (∀ rel v,
      getObject (move_folder st p ("done/".data ++ p)) ("done/".data ++ p ++ rel)
          = some v
        ↔ getObject st (p ++ rel) = some v) := by
  have hlen : p.length ≤ ("done/".data ++ p).length := by
    rw [List.length_append]
    exact Nat.le_add_left p.length _
  have hndL : ((listAllObjects st p).map Prod.fst).Nodup :=
    hnd.sublist (List.Sublist.map Prod.fst (List.filter_sublist st))
  have hLP : ∀ kv ∈ listAllObjects st p, p <+: kv.1 := by
    intro kv hkv
    have := List.of_mem_filter hkv
    rwa [decide_eq_true_eq] at this
  have hLs : ∀ kv ∈ listAllObjects st p, getObject st kv.1 = some kv.2 :=
    fun kv hkv => getObject_of_mem hnd (List.mem_of_mem_filter hkv)
  obtain ⟨H1, H2, H3, H4⟩ :=
    move_fold_spec hlen hsep (listAllObjects st p) st hnd hndL hLP hLs
  rw [move_folder]
  constructor
  · rw [listAllObjects, List.filter_eq_nil_iff]
    intro kv hkv
    rw [decide_eq_true_eq]
    intro hpre
    have hsome := getObject_of_mem H1 hkv
    by_cases hmem : kv.1 ∈ (listAllObjects st p).map Prod.fst
    · obtain ⟨kv₀, hkv₀, hk₀⟩ := List.mem_map.mp hmem
      have hnone := H2 kv₀ hkv₀
      rw [hk₀, hsome] at hnone
      exact Option.noConfusion hnone
    · have h2 : ∀ kv₃ ∈ listAllObjects st p,
          ("done/".data ++ p) ++ kv₃.1.drop p.length ≠ kv.1 := by
        intro kv₃ _ hc
        apply not_prefix_target hlen hsep (kv₃.1.drop p.length)
        rw [hc]
        exact hpre
      rw [H4 kv.1 hmem h2] at hsome
      have hmem₀ := mem_of_getObject hsome
      have hinL : (kv.1, kv.2) ∈ listAllObjects st p :=
        List.mem_filter.mpr ⟨hmem₀, by simpa using hpre⟩
      exact hmem (List.mem_map_of_mem Prod.fst hinL)
  · intro rel v
    constructor
    · intro hsome
      have hTrel : ("done/".data ++ p) ++ rel ∉ (listAllObjects st p).map Prod.fst := by
        intro hc
        obtain ⟨kv₀, hkv₀, hk₀⟩ := List.mem_map.mp hc
        have hpre := hLP kv₀ hkv₀
        rw [hk₀] at hpre
        exact not_prefix_target hlen hsep rel hpre
      by_cases hexist : ∃ kv₀ ∈ listAllObjects st p,
          ("done/".data ++ p) ++ kv₀.1.drop p.length = ("done/".data ++ p) ++ rel
      · obtain ⟨kv₀, hkv₀, hk₀⟩ := hexist
        have hdr : kv₀.1.drop p.length = rel := List.append_cancel_left hk₀
        obtain ⟨r, hr⟩ := hLP kv₀ hkv₀
        rw [← hr, List.drop_left] at hdr
        have hk1 : kv₀.1 = p ++ rel := by rw [← hr, hdr]
        have h3 := H3 kv₀ hkv₀
        rw [hk₀, hsome] at h3
        have hv : v = kv₀.2 := Option.some.inj h3
        rw [← hk1, hLs kv₀ hkv₀, hv]
      · have hne₂ : ∀ kv₀ ∈ listAllObjects st p,
            ("done/".data ++ p) ++ kv₀.1.drop p.length ≠ ("done/".data ++ p) ++ rel := by
          intro kv₀ hkv₀ hc
          exact hexist ⟨kv₀, hkv₀, hc⟩
        rw [H4 (("done/".data ++ p) ++ rel) hTrel hne₂] at hsome
        have hmem₀ := mem_of_getObject hsome
        exact absurd (List.prefix_append ("done/".data ++ p) rel)
          (hclean (("done/".data ++ p) ++ rel, v) hmem₀)
    · intro hsome
      have hmem₀ := mem_of_getObject hsome
      have hL : (p ++ rel, v) ∈ listAllObjects st p :=
        List.mem_filter.mpr ⟨hmem₀, by simp⟩
      have h3 := H3 _ hL
      rw [List.drop_left] at h3
      exact h3

/-- C6 (witness).  A store with two objects under `a/` and one under `b/`:
after the move, `a/` is empty and both objects sit under `done/a/` at their
relative paths. -/
theorem c6_witness :
    (([("a/x".data, 1), ("a/y".data, 2), ("b/z".data, 3)].map Prod.fst).Nodup) ∧
    (¬ "a/".data <+: ("done/".data ++ "a/".data)) ∧
    listAllObjects
        (move_folder [("a/x".data, 1), ("a/y".data, 2), ("b/z".data, 3)]
          "a/".data ("done/".data ++ "a/".data)) "a/".data = [] ∧
    (getObject
        (move_folder [("a/x".data, 1), ("a/y".data, 2), ("b/z".data, 3)]
          "a/".data ("done/".data ++ "a/".data))
        ("done/".data ++ "a/".data ++ "x".data) = some 1
      ↔ getObject [("a/x".data, 1), ("a/y".data, 2), ("b/z".data, 3)]
          ("a/".data ++ "x".data) = some 1) :=
  ⟨by decide, by decide,
   (c6_move_folder_relocates [("a/x".data, 1), ("a/y".data, 2), ("b/z".data, 3)]
     "a/".data (by decide) (by decide) (by decide) (by decide)).1,
   (c6_move_folder_relocates [("a/x".data, 1), ("a/y".data, 2), ("b/z".data, 3)]
     "a/".data (by decide) (by decide) (by decide) (by decide)).2 "x".data 1⟩
